import Mathlib

/-!
Verification of the Profiling-RTIC core against its specification.

The repository profiles worst-case latencies of task hand-off mechanisms on
an embedded target.  This development shallowly embeds the relevant source
code:

* `src/time.rs` — the clock-frequency and cycle-counter accessor state
  (statics `HCLK_MHZ` and `DWT_REF` with their setters and getters);
* `src/task_semaphore.rs` — the one-time-initialized collapsing-flag
  semaphore with its `Signaler`/`Waiter` handles and the deadline-watchdog
  side channel;
* `src/main.rs` — the per-target profiling loops (activation counter,
  worst-case accumulator, cycle-to-nanosecond conversion, threshold
  termination) and the event ordering of each loop body (critical sections,
  cycle-counter resets, start events).

Machine floats (`f32`) are modelled over `ℚ`; `u32` counters stay in `ℕ`
since every value involved is bounded far below `2^32` (the activation
counter never exceeds the threshold 100).  Fatal stops (`defmt::panic!`
calls written in the source as a fatal log-and-halt) are modelled as
`Except String` errors or as an absorbing `halted` component of the task
state.
-/

/-! ## Model of `src/time.rs` (systick feature active)

`static mut HCLK_MHZ: f32 = 0.0` and `static mut DWT_REF: Option<&DWT> = None`
with their setters and getters.  The `DWT` reference is opaque; we model it
as a `Nat` token.  `get_dwt_ref` uses `Option::expect`, a fatal stop with
message "DWT reference not set", modelled as `Except.error`. -/

structure TimeStatics where
  hclk_mhz : ℚ
  dwt_ref : Option ℕ
  deriving Repr, DecidableEq

/-- Initial values of the two statics: `HCLK_MHZ = 0.0`, `DWT_REF = None`. -/
def timeStaticsInit : TimeStatics := { hclk_mhz := 0, dwt_ref := none }

def set_hclk_mhz (v : ℚ) (s : TimeStatics) : TimeStatics :=
  { s with hclk_mhz := v }

def get_hclk_mhz (s : TimeStatics) : ℚ :=
  s.hclk_mhz

def set_dwt_ref (r : ℕ) (s : TimeStatics) : TimeStatics :=
  { s with dwt_ref := some r }

def get_dwt_ref (s : TimeStatics) : Except String ℕ :=
  match s.dwt_ref with
  | some r => .ok r
  | none => .error "DWT reference not set"

/-! ## Model of `src/task_semaphore.rs`

`TaskSemaphore::init` guards one-time construction with
`INITIALIZED.compare_exchange(false, true, ...)`: the winner writes the
static `Signal` storage, splits it and returns the
`(TaskSemaphoreWaiter, TaskSemaphoreSignaler)` pair; every loser hits
`defmt::panic!("Multiple TaskSemaphore initialization")`, a fatal stop that
never returns, modelled as `Except.error`. -/

structure InitGuard where
  initialized : Bool
  deriving Repr, DecidableEq

/-- `INITIALIZED: AtomicBool = AtomicBool::new(false)`. -/
def initGuardStart : InitGuard := { initialized := false }

/-- Opaque tokens for the two handles returned by a successful `init`. -/
structure TaskSemaphoreWaiter where
  deriving Repr, DecidableEq

structure TaskSemaphoreSignaler where
  deriving Repr, DecidableEq

namespace TaskSemaphore

/-- `TaskSemaphore::init`: the compare-and-swap succeeds exactly when the
guard still holds `false`; the winner flips it to `true` and obtains the
handle pair, any other caller fails fatally. -/
def init (s : InitGuard) :
    Except String ((TaskSemaphoreWaiter × TaskSemaphoreSignaler) × InitGuard) :=
  if s.initialized = false then
    .ok ((⟨⟩, ⟨⟩), { initialized := true })
  else
    .error "Multiple TaskSemaphore initialization"

end TaskSemaphore

/-- Guard state after `n` sequential calls to `TaskSemaphore.init` starting
from `initGuardStart` (a failing call leaves the guard unchanged). -/
def initGuardAfter : ℕ → InitGuard
  | 0 => initGuardStart
  | n + 1 =>
    match TaskSemaphore.init (initGuardAfter n) with
    | .ok (_, s) => s
    | .error _ => initGuardAfter n

/-! ## Collapsing-flag semaphore state and its operations

The backing storage is `rtic_sync::signal::Signal<()>`, a single-slot
"latest value" cell: `SignalWriter::write` overwrites the slot,
`SignalReader::wait` suspends until the slot is occupied, then takes the
value and clears the slot.  For the unit payload this is a presence flag.
The `TaskSemaphoreSignaler` additionally owns the deadline-watchdog
`SignalWriter<Instant>`, a single-slot overwrite channel of timestamps. -/

structure SemState where
  flag : Bool
  watchdog : Option ℚ
  deriving Repr, DecidableEq

namespace TaskSemaphoreSignaler

/-- `TaskSemaphoreSignaler::signal`: inside one `critical_section::with`,
write `()` to the semaphore slot, then write `Mono::now()` (the parameter
`now`) to the watchdog slot. -/
def signal (now : ℚ) (_s : SemState) : SemState :=
  { flag := true, watchdog := some now }

end TaskSemaphoreSignaler

namespace TaskSemaphoreWaiter

/-- `TaskSemaphoreWaiter::wait`: resolves (returns `some ()`) exactly when
the slot is occupied, consuming the value; otherwise the task stays
suspended (`none`, state unchanged). -/
def wait (s : SemState) : Option Unit × SemState :=
  if s.flag then (some (), { s with flag := false }) else (none, s)

end TaskSemaphoreWaiter

/-- A sequence of `signal` calls at timestamps `ts`, oldest first. -/
def signalSeq (ts : List ℚ) (s : SemState) : SemState :=
  ts.foldl (fun s t => TaskSemaphoreSignaler.signal t s) s

/-- Number of pending notifications held by the collapsing flag. -/
def pendingCount (s : SemState) : ℕ :=
  if s.flag then 1 else 0

/-! ### C1, C2, C10 -/

/-- C1: `TaskSemaphore::init` returns a `(Waiter, Signaler)` handle pair
exactly on the first call of every call sequence; every later call fails
fatally with the double-initialization condition and never returns a
handle pair. -/
theorem taskSemaphore_init_first_call_only (n : ℕ) :
    ((TaskSemaphore.init (initGuardAfter n)).isOk ↔ n = 0) ∧
    (0 < n →
      TaskSemaphore.init (initGuardAfter n) =
        .error "Multiple TaskSemaphore initialization") := by
  have hguard : ∀ m : ℕ, (initGuardAfter m).initialized = decide (0 < m) := by
    intro m
    induction m with
    | zero => rfl
    | succ k ih =>
      simp only [initGuardAfter, TaskSemaphore.init]
      by_cases hk : (initGuardAfter k).initialized = false
      · simp [hk]
      · have htrue : (initGuardAfter k).initialized = true := by
          cases h : (initGuardAfter k).initialized
          · exact absurd h hk
          · rfl
        simp [htrue]
  constructor
  · constructor
    · intro h
      by_contra hn
      have hpos : 0 < n := Nat.pos_of_ne_zero hn
      simp only [TaskSemaphore.init, hguard n, hpos] at h
      simp [Except.isOk, Except.toBool] at h
    · intro h
      subst h
      simp [TaskSemaphore.init, hguard 0, Except.isOk, Except.toBool]
  · intro hpos
    simp [TaskSemaphore.init, hguard n, hpos]

/-- Witness for C1: the first call succeeds, the second fails fatally. -/
theorem taskSemaphore_init_first_call_only_witness :
    (TaskSemaphore.init (initGuardAfter 0)).isOk = true ∧
    TaskSemaphore.init (initGuardAfter 1) =
      .error "Multiple TaskSemaphore initialization" := by
  refine ⟨(taskSemaphore_init_first_call_only 0).1.mpr rfl, ?_⟩
  exact (taskSemaphore_init_first_call_only 1).2 (by decide)

/-- C2: after any nonempty sequence of `signal` calls with no intervening
`wait`, exactly one notification is pending (repeats collapse), and a
single subsequent `wait` resolves, clears the flag, and returns the unit
value. -/
theorem signal_collapses_wait_clears (ts : List ℚ) (s : SemState)
    (h : ts ≠ []) :
    pendingCount (signalSeq ts s) = 1 ∧
    (TaskSemaphoreWaiter.wait (signalSeq ts s)).1 = some () ∧
    (TaskSemaphoreWaiter.wait (signalSeq ts s)).2.flag = false := by
  have hflag : (signalSeq ts s).flag = true := by
    induction ts generalizing s with
    | nil => exact absurd rfl h
    | cons t rest ih =>
      cases rest with
      | nil => rfl
      | cons u more =>
        exact ih (TaskSemaphoreSignaler.signal t s) (by simp)
  refine ⟨?_, ?_, ?_⟩
  · simp [pendingCount, hflag]
  · simp [TaskSemaphoreWaiter.wait, hflag]
  · simp [TaskSemaphoreWaiter.wait, hflag]

/-- Witness for C2: three signals collapse to one pending notification and
one `wait` consumes it. -/
theorem signal_collapses_wait_clears_witness :
    pendingCount (signalSeq [1, 2, 3] { flag := false, watchdog := none }) = 1 ∧
    (TaskSemaphoreWaiter.wait
      (signalSeq [1, 2, 3] { flag := false, watchdog := none })).1 = some () ∧
    (TaskSemaphoreWaiter.wait
      (signalSeq [1, 2, 3] { flag := false, watchdog := none })).2.flag = false :=
  signal_collapses_wait_clears [1, 2, 3] { flag := false, watchdog := none }
    (by decide)

/-- C10: on the initial statics, `get_dwt_ref` fails fatally with
"DWT reference not set" and `get_hclk_mhz` returns 0; after a setter has
run, the matching getter returns the most recently set value. -/
theorem time_statics_getters_setters :
    get_dwt_ref timeStaticsInit = .error "DWT reference not set" ∧
    get_hclk_mhz timeStaticsInit = 0 ∧
    (∀ (v : ℚ) (s : TimeStatics), get_hclk_mhz (set_hclk_mhz v s) = v) ∧
    (∀ (r : ℕ) (s : TimeStatics), get_dwt_ref (set_dwt_ref r s) = .ok r) := by
  refine ⟨rfl, rfl, fun v s => rfl, fun r s => rfl⟩

/-! ## Event traces of the loop bodies

To settle the ordering/atomicity claims we record each relevant loop body
as a list of primitive events, exactly in source order.  A critical
section (`critical_section::with`) is delimited by `csEnter`/`csExit`; a
higher-priority observer can only look at the state between atomic blocks,
where a whole critical section is one block. -/

inductive Ev where
  /-- entry into `critical_section::with` -/
  | csEnter
  /-- exit from `critical_section::with` -/
  | csExit
  /-- `self.inner.write(())` — the semaphore storage write -/
  | writeStorage
  /-- `self.activation_watchdog.write(Mono::now())` — the watchdog write -/
  | writeWatchdog
  /-- `NVIC::pend(interrupt::EXTI0)` — request the profiled interrupt -/
  | pendInterrupt
  /-- `dwt.cyccnt.write(0)` — reset the cycle counter -/
  | resetCyccnt
  /-- `dwt.cyccnt.read()` — read the cycle counter -/
  | readCyccnt
  /-- `Mono::delay_until(..).await` — arm the timed wakeup and suspend -/
  | armDelayUntil
  /-- `Mono::delay(..).await` — inter-trial delay -/
  | armDelay
  /-- `*cx.local.next_time = Some(Mono::now() + 1.secs())` -/
  | setNextTime
  /-- `cx.local.task_semaphore_signaler.signal()` — the whole call -/
  | signalCall
  deriving Repr, DecidableEq

/-- Body of `TaskSemaphoreSignaler::signal` (task_semaphore.rs 57-63):
one critical section containing the storage write then the watchdog
write. -/
def signalTrace : List Ev :=
  [.csEnter, .writeStorage, .writeWatchdog, .csExit]

/-- Loop body of `rise_interrupt` (main.rs 283-292): compute the next
wakeup, then inside one critical section pend EXTI0 and reset the cycle
counter, then suspend until the next wakeup. -/
def riseInterruptTrace : List Ev :=
  [.setNextTime, .csEnter, .pendInterrupt, .resetCyccnt, .csExit, .armDelayUntil]

/-- Loop body of `delay_until_profiling` (main.rs 315-335), up to the
cycle-counter read: reset the counter, arm the timed wakeup and suspend,
read the counter.  No critical section appears. -/
def delayUntilTrace : List Ev :=
  [.resetCyccnt, .armDelayUntil, .readCyccnt]

/-- Loop body of `task_seamaphore_signaler_task` (main.rs 373-380): inside
one critical section call `signal()` then reset the cycle counter, then
the inter-trial delay. -/
def signalerTaskTrace : List Ev :=
  [.csEnter, .signalCall, .resetCyccnt, .csExit, .armDelay]

/-- `a` occurs immediately before `b` somewhere in the trace. -/
def immediatelyBefore (tr : List Ev) (a b : Ev) : Bool :=
  (tr.zip tr.tail).any (fun p => p.1 = a && p.2 = b)

/-- Events of the trace that lie inside a critical section (the traces
above open at most one critical section at a time, so a simple
inside/outside flag suffices). -/
def eventsInCS : List Ev → Bool → List Ev
  | [], _ => []
  | .csEnter :: rest, _ => eventsInCS rest true
  | .csExit :: rest, _ => eventsInCS rest false
  | e :: rest, inside =>
    if inside then e :: eventsInCS rest inside else eventsInCS rest inside

/-- `e` happens inside a critical section of the trace. -/
def inCS (tr : List Ev) (e : Ev) : Bool :=
  (eventsInCS tr false).contains e

/-- Split a trace into atomic blocks: an event outside a critical section
is a block by itself; a whole critical section is one block.  The `acc`
argument holds the (reversed) events of a critical section currently
open. -/
def atomicBlocks : List Ev → Option (List Ev) → List (List Ev)
  | [], none => []
  | [], some acc => [acc.reverse]
  | e :: rest, none =>
    if e = .csEnter then atomicBlocks rest (some [e])
    else [e] :: atomicBlocks rest none
  | e :: rest, some acc =>
    if e = .csExit then (e :: acc).reverse :: atomicBlocks rest none
    else atomicBlocks rest (some (e :: acc))

/-- Effect of one event on the semaphore/watchdog state, the timestamp of
the run being `now`.  Events that touch neither slot leave the state
unchanged. -/
def evStep (now : ℚ) (s : SemState) : Ev → SemState
  | .writeStorage => { s with flag := true }
  | .writeWatchdog => { s with watchdog := some now }
  | _ => s

/-- The states a concurrent observer can see while the trace runs: the
state before and after every atomic block. -/
def observations (now : ℚ) (tr : List Ev) (s : SemState) : List SemState :=
  (atomicBlocks tr none).scanl (fun s blk => blk.foldl (evStep now) s) s

/-! ### C3 -/

/-- C3: `signal` runs under one critical section; it updates the storage
and unconditionally writes the timestamp to the watchdog, the watchdog
write immediately after the storage write and inside the same critical
section; the only observable states are the initial one and the one with
both writes applied, so no observer sees one write without the other. -/
theorem signal_atomic_pair (now : ℚ) (s : SemState) :
    observations now signalTrace s = [s, { flag := true, watchdog := some now }] ∧
    immediatelyBefore signalTrace .writeStorage .writeWatchdog = true ∧
    inCS signalTrace .writeStorage = true ∧
    inCS signalTrace .writeWatchdog = true := by
  refine ⟨rfl, rfl, rfl, rfl⟩

/-! ### C8 -/

/-- The property C8 asserts, read off the three profiling targets: the
cycle-counter reset immediately precedes the start event (pend the
interrupt / arm the timed wakeup / call `signal()`), and reset and start
event sit inside a critical section together. -/
def c8ClaimedOrdering : Bool :=
  immediatelyBefore riseInterruptTrace .resetCyccnt .pendInterrupt &&
  inCS riseInterruptTrace .resetCyccnt &&
  inCS riseInterruptTrace .pendInterrupt &&
  immediatelyBefore delayUntilTrace .resetCyccnt .armDelayUntil &&
  inCS delayUntilTrace .resetCyccnt &&
  inCS delayUntilTrace .armDelayUntil &&
  immediatelyBefore signalerTaskTrace .resetCyccnt .signalCall &&
  inCS signalerTaskTrace .resetCyccnt &&
  inCS signalerTaskTrace .signalCall

/-- C8 counterexample: in the source the reset does not immediately
precede the start event (in `rise_interrupt` the reset follows
`NVIC::pend`), and the `delay_until_profiling` reset is in no critical
section, so the claimed ordering is false on the actual traces. -/
theorem c8_claimed_ordering_false :
    c8ClaimedOrdering = false ∧
    immediatelyBefore riseInterruptTrace .resetCyccnt .pendInterrupt = false ∧
    inCS delayUntilTrace .resetCyccnt = false := by
  refine ⟨rfl, rfl, rfl⟩

/-- C8 amended: the reset coincides with the start event, but for the
interrupt-dispatch and semaphore-signal targets it comes immediately
AFTER the start event (inside the same critical section as it), while for
the timed-wakeup target it comes immediately before arming the wakeup
with no critical section at all. -/
theorem c8_actual_ordering :
    (immediatelyBefore riseInterruptTrace .pendInterrupt .resetCyccnt = true ∧
      inCS riseInterruptTrace .resetCyccnt = true ∧
      inCS riseInterruptTrace .pendInterrupt = true) ∧
    (immediatelyBefore delayUntilTrace .resetCyccnt .armDelayUntil = true ∧
      eventsInCS delayUntilTrace false = []) ∧
    (immediatelyBefore signalerTaskTrace .signalCall .resetCyccnt = true ∧
      inCS signalerTaskTrace .resetCyccnt = true ∧
      inCS signalerTaskTrace .signalCall = true) := by
  refine ⟨⟨rfl, rfl, rfl⟩, ⟨rfl, rfl⟩, ⟨rfl, rfl, rfl⟩⟩

/-! ## Profiling loops of `src/main.rs`

Each profiling task repeats the same trial shape: read the cycle counter,
convert to nanoseconds, fold into the worst-case accumulator, bump the
activation counter, and on reaching `WCET_THRESHOLD` log the worst case
and stop the process fatally.  The fatal stop is modelled by the
absorbing `halted` field, which carries the emitted worst-case figure. -/

/-- `const WCET_THRESHOLD: u32 = 100` (main.rs 20). -/
def WCET_THRESHOLD : ℕ := 100

/-- The configured core clock: `init` freezes the clock tree with
`sysclk(168.MHz())` and stores `clocks.hclk().to_MHz()`, which is 168
(main.rs 143-152). -/
def configured_hclk_mhz : ℚ := 168

/-- Local state of a cycle-measuring consumer loop
(`task_semaphore_waiter_task`, main.rs 384-402, and `signal_reader_task`,
main.rs 351-369): the `*_hclk_mhz`, `*_cycles`, `*_time`, `wc_*` and
`*_activation_count` locals, plus the absorbing fatal-stop marker. -/
structure CycleTaskState where
  hclk_mhz : ℚ
  cycles : ℕ
  time : ℚ
  wc : ℚ
  count : ℕ
  halted : Option ℚ
  deriving Repr, DecidableEq

/-- One trial of `task_semaphore_waiter_task` (main.rs 386-400), entered
when `wait()` resolves with the cycle counter reading `cyccnt`:
`time = cycles / hclk_mhz * 1000`, `wc = max wc time`, `count += 1`, and
on `count == WCET_THRESHOLD` the worst case is emitted and the process
stops.  Once halted nothing runs any more. -/
def task_semaphore_waiter_trial (cyccnt : ℕ) (s : CycleTaskState) :
    CycleTaskState :=
  if s.halted.isSome then s
  else
    let time := (cyccnt : ℚ) / s.hclk_mhz * 1000
    let wc := max s.wc time
    let count := s.count + 1
    { s with
      cycles := cyccnt
      time := time
      wc := wc
      count := count
      halted := if count = WCET_THRESHOLD then some wc else none }

/-- Initial locals of `task_semaphore_waiter_task` (main.rs 253-260):
`hclk_mhz` is the configured frequency. -/
def task_semaphore_waiter_init : CycleTaskState :=
  { hclk_mhz := configured_hclk_mhz, cycles := 0, time := 0, wc := 0,
    count := 0, halted := none }

/-- One trial of `signal_reader_task` (main.rs 352-368); the loop body is
the same shape as the task-semaphore waiter's. -/
def signal_reader_trial (cyccnt : ℕ) (s : CycleTaskState) : CycleTaskState :=
  if s.halted.isSome then s
  else
    let time := (cyccnt : ℚ) / s.hclk_mhz * 1000
    let wc := max s.wc time
    let count := s.count + 1
    { s with
      cycles := cyccnt
      time := time
      wc := wc
      count := count
      halted := if count = WCET_THRESHOLD then some wc else none }

/-- Initial locals of `signal_reader_task` (main.rs 244-250): note
`signal_reader_hclk_mhz: 0.0` — the divisor is zero, not `hclk_mhz`. -/
def signal_reader_init : CycleTaskState :=
  { hclk_mhz := 0, cycles := 0, time := 0, wc := 0, count := 0,
    halted := none }

/-- Run of the task-semaphore waiter over a list of counter readings. -/
def waiterRun (rs : List ℕ) (s : CycleTaskState) : CycleTaskState :=
  rs.foldl (fun s r => task_semaphore_waiter_trial r s) s

/-- Run of the signal reader over a list of counter readings. -/
def readerRun (rs : List ℕ) (s : CycleTaskState) : CycleTaskState :=
  rs.foldl (fun s r => signal_reader_trial r s) s

/-- Local state of `delay_until_profiling` (main.rs 313-336). -/
structure DelayTaskState where
  hclk_mhz : ℚ
  delay_interval : ℕ
  cycles : ℕ
  overhead : ℚ
  wc : ℚ
  count : ℕ
  halted : Option ℚ
  deriving Repr, DecidableEq

/-- One trial of `delay_until_profiling` (main.rs 315-335): reset the
counter, await `delay_until(now + delay_interval.nanos())`, read `cyccnt`,
then `overhead = cycles / hclk_mhz * 1000 - delay_interval`,
`wc = max wc overhead`, `count += 1`, threshold stop as above. -/
def delayTrial (cyccnt : ℕ) (s : DelayTaskState) : DelayTaskState :=
  if s.halted.isSome then s
  else
    let overhead := (cyccnt : ℚ) / s.hclk_mhz * 1000 - (s.delay_interval : ℚ)
    let wc := max s.wc overhead
    let count := s.count + 1
    { s with
      cycles := cyccnt
      overhead := overhead
      wc := wc
      count := count
      halted := if count = WCET_THRESHOLD then some wc else none }

/-- Initial locals of `delay_until_profiling` (main.rs 232-238):
configured frequency, 10 ns nominal interval. -/
def delayInit : DelayTaskState :=
  { hclk_mhz := configured_hclk_mhz, delay_interval := 10, cycles := 0,
    overhead := 0, wc := 0, count := 0, halted := none }

/-- Run of `delay_until_profiling` over a list of counter readings,
also collecting the overhead samples the run produces (one per trial
actually executed before the fatal stop). -/
def delayRun : List ℕ → DelayTaskState → DelayTaskState × List ℚ
  | [], s => (s, [])
  | r :: rs, s =>
    if s.halted.isSome then (s, [])
    else
      let s₁ := delayTrial r s
      let p := delayRun rs s₁
      (p.1, s₁.overhead :: p.2)

/-- `actual_elapsed_ns`: the raw elapsed time of a timed wakeup, read off
the cycle counter (main.rs 321, the "tot delay_until time in ns" term). -/
def actual_elapsed_ns (cycles : ℕ) (hclk : ℚ) : ℚ :=
  (cycles : ℚ) / hclk * 1000

/-- The worst-case accumulator update of one trial
(main.rs 328 and 394). -/
def wcStep (wc sample : ℚ) : ℚ :=
  max wc sample

/-- The accumulator after folding a whole sample stream from its initial
value `0.0`. -/
def wcFold (samples : List ℚ) : ℚ :=
  samples.foldl wcStep 0

/-- Maximum of a sample list (`0` for the empty list, which no run
produces). -/
def maxOf : List ℚ → ℚ
  | [] => 0
  | x :: xs => xs.foldl max x

/-! ### C4 -/

/-- C4: per completed trial the activation counter of the task-semaphore
waiter increments by exactly 1; the fatal Terminated transition fires iff
the incremented counter equals `WCET_THRESHOLD`, it emits the accumulated
worst case; a halted session never moves again (the transition fires at
most once), and over any run from the initial locals the counter never
exceeds the threshold and the session is halted exactly when the counter
equals it. -/
theorem waiter_activation_counter_terminates :
    (∀ (r : ℕ) (s : CycleTaskState), s.halted = none →
      (task_semaphore_waiter_trial r s).count = s.count + 1) ∧
    (∀ (r : ℕ) (s : CycleTaskState), s.halted = none →
      ((task_semaphore_waiter_trial r s).halted.isSome ↔
        s.count + 1 = WCET_THRESHOLD)) ∧
    (∀ (r : ℕ) (s : CycleTaskState), s.halted = none →
      s.count + 1 = WCET_THRESHOLD →
      (task_semaphore_waiter_trial r s).halted =
        some (max s.wc ((r : ℚ) / s.hclk_mhz * 1000))) ∧
    (∀ (r : ℕ) (s : CycleTaskState), s.halted.isSome →
      task_semaphore_waiter_trial r s = s) ∧
    (∀ rs : List ℕ,
      (waiterRun rs task_semaphore_waiter_init).count ≤ WCET_THRESHOLD ∧
      ((waiterRun rs task_semaphore_waiter_init).halted.isSome ↔
        (waiterRun rs task_semaphore_waiter_init).count = WCET_THRESHOLD)) := by
  have habsorb : ∀ (r : ℕ) (s : CycleTaskState), s.halted.isSome →
      task_semaphore_waiter_trial r s = s := by
    intro r s h
    simp [task_semaphore_waiter_trial, h]
  have hinv : ∀ (rs : List ℕ) (s : CycleTaskState),
      s.count ≤ WCET_THRESHOLD →
      (s.halted.isSome ↔ s.count = WCET_THRESHOLD) →
      (waiterRun rs s).count ≤ WCET_THRESHOLD ∧
        ((waiterRun rs s).halted.isSome ↔
          (waiterRun rs s).count = WCET_THRESHOLD) := by
    intro rs
    induction rs with
    | nil => intro s hle hiff; exact ⟨hle, hiff⟩
    | cons r rest ih =>
      intro s hle hiff
      have hstep : waiterRun (r :: rest) s =
          waiterRun rest (task_semaphore_waiter_trial r s) := rfl
      rw [hstep]
      by_cases hh : s.halted.isSome
      · rw [habsorb r s hh]
        exact ih s hle hiff
      · have hnone : s.halted = none := Option.not_isSome_iff_eq_none.mp hh
        have hne : s.count ≠ WCET_THRESHOLD := by
          intro heq
          exact hh (hiff.mpr heq)
        have hlt : s.count < WCET_THRESHOLD := lt_of_le_of_ne hle hne
        apply ih
        · simp [task_semaphore_waiter_trial, hnone]
          exact hlt
        · by_cases hc : s.count + 1 = WCET_THRESHOLD <;>
            simp [task_semaphore_waiter_trial, hnone, hc]
  refine ⟨?_, ?_, ?_, habsorb, ?_⟩
  · intro r s h
    simp [task_semaphore_waiter_trial, h]
  · intro r s h
    by_cases hc : s.count + 1 = WCET_THRESHOLD <;>
      simp [task_semaphore_waiter_trial, h, hc]
  · intro r s h hc
    simp [task_semaphore_waiter_trial, h, hc]
  · intro rs
    exact hinv rs task_semaphore_waiter_init (by decide) (by simp [task_semaphore_waiter_init, WCET_THRESHOLD])

/-- Witness for C4: the first trial brings the counter from 0 to 1, a
halted session is frozen, and a two-trial run stays within the
threshold. -/
theorem waiter_activation_counter_terminates_witness :
    (task_semaphore_waiter_trial 42 task_semaphore_waiter_init).count =
      task_semaphore_waiter_init.count + 1 ∧
    (waiterRun [1, 2] task_semaphore_waiter_init).count ≤ WCET_THRESHOLD := by
  refine ⟨waiter_activation_counter_terminates.1 42 task_semaphore_waiter_init rfl, ?_⟩
  exact (waiter_activation_counter_terminates.2.2.2.2 [1, 2]).1

/-! ### C7 -/

/-- C7: each timed-wakeup trial records
`actual_elapsed_ns − nominal_interval_ns`, which differs from the raw
elapsed time whenever the nominal interval is nonzero, and is nonnegative
whenever the dispatcher wakes the task no earlier than the nominal
interval. -/
theorem delay_until_overhead_semantics (r : ℕ) (s : DelayTaskState)
    (hrun : s.halted = none) :
    (delayTrial r s).overhead =
      actual_elapsed_ns r s.hclk_mhz - (s.delay_interval : ℚ) ∧
    ((s.delay_interval : ℚ) ≤ actual_elapsed_ns r s.hclk_mhz →
      0 ≤ (delayTrial r s).overhead) ∧
    (s.delay_interval ≠ 0 →
      (delayTrial r s).overhead ≠ actual_elapsed_ns r s.hclk_mhz) := by
  have h1 : (delayTrial r s).overhead =
      actual_elapsed_ns r s.hclk_mhz - (s.delay_interval : ℚ) := by
    simp [delayTrial, hrun, actual_elapsed_ns]
  refine ⟨h1, ?_, ?_⟩
  · intro hle
    rw [h1]
    exact sub_nonneg.mpr hle
  · intro hne heq
    rw [h1] at heq
    have : (s.delay_interval : ℚ) = 0 := sub_eq_self.mp heq
    exact hne (Nat.cast_eq_zero.mp this)

/-- Witness for C7: a trial of the initial delay-until session with a
16800-cycle reading (100000 ns elapsed against the 10 ns nominal
interval) records the difference and it is nonnegative. -/
theorem delay_until_overhead_semantics_witness :
    (delayTrial 16800 delayInit).overhead =
      actual_elapsed_ns 16800 delayInit.hclk_mhz -
        (delayInit.delay_interval : ℚ) ∧
    0 ≤ (delayTrial 16800 delayInit).overhead ∧
    (delayTrial 16800 delayInit).overhead ≠
      actual_elapsed_ns 16800 delayInit.hclk_mhz := by
  have h := delay_until_overhead_semantics 16800 delayInit rfl
  refine ⟨h.1, h.2.1 ?_, h.2.2 ?_⟩
  · show ((10 : ℕ) : ℚ) ≤ actual_elapsed_ns 16800 delayInit.hclk_mhz
    norm_num [actual_elapsed_ns, delayInit, configured_hclk_mhz]
  · decide

/-! ### C5 and helper lemmas about the worst-case accumulator -/

theorem delayTrial_wc_mono (r : ℕ) (s : DelayTaskState) :
    s.wc ≤ (delayTrial r s).wc := by
  by_cases hh : s.halted.isSome <;> simp [delayTrial, hh]

theorem waiter_trial_wc_mono (r : ℕ) (s : CycleTaskState) :
    s.wc ≤ (task_semaphore_waiter_trial r s).wc := by
  by_cases hh : s.halted.isSome <;> simp [task_semaphore_waiter_trial, hh]

theorem delayRun_halted (rs : List ℕ) (s : DelayTaskState)
    (h : s.halted.isSome) : delayRun rs s = (s, []) := by
  cases rs with
  | nil => rfl
  | cons r rest => simp [delayRun, h]

theorem delayRun_wc_mono (rs : List ℕ) (s : DelayTaskState) :
    s.wc ≤ (delayRun rs s).1.wc := by
  induction rs generalizing s with
  | nil => exact le_refl _
  | cons r rest ih =>
    by_cases hh : s.halted.isSome
    · rw [delayRun_halted (r :: rest) s hh]
    · calc s.wc ≤ (delayTrial r s).wc := delayTrial_wc_mono r s
        _ ≤ (delayRun rest (delayTrial r s)).1.wc := ih (delayTrial r s)
        _ = (delayRun (r :: rest) s).1.wc := by simp [delayRun, hh]

theorem delayRun_append (rs rs' : List ℕ) (s : DelayTaskState) :
    (delayRun (rs ++ rs') s).1 = (delayRun rs' (delayRun rs s).1).1 := by
  induction rs generalizing s with
  | nil => rfl
  | cons r rest ih =>
    by_cases hh : s.halted.isSome
    · rw [delayRun_halted (r :: rest ++ rs') s hh,
        delayRun_halted (r :: rest) s hh]
      simp [delayRun_halted rs' s hh]
    · simp only [List.cons_append, delayRun, hh, if_false]
      exact ih (delayTrial r s)

theorem delayRun_wc_fold (rs : List ℕ) (s : DelayTaskState) :
    (delayRun rs s).1.wc = (delayRun rs s).2.foldl max s.wc := by
  induction rs generalizing s with
  | nil => rfl
  | cons r rest ih =>
    by_cases hh : s.halted.isSome
    · rw [delayRun_halted (r :: rest) s hh]
      rfl
    · have hwc : (delayTrial r s).wc = max s.wc (delayTrial r s).overhead := by
        simp [delayTrial, hh]
      have hstep : delayRun (r :: rest) s =
          ((delayRun rest (delayTrial r s)).1,
            (delayTrial r s).overhead :: (delayRun rest (delayTrial r s)).2) := by
        simp [delayRun, hh]
      rw [hstep]
      show (delayRun rest (delayTrial r s)).1.wc =
        List.foldl max s.wc
          ((delayTrial r s).overhead :: (delayRun rest (delayTrial r s)).2)
      rw [ih (delayTrial r s), hwc]
      rfl

theorem foldl_max_shift (l : List ℚ) (a b : ℚ) :
    l.foldl max (max a b) = max a (l.foldl max b) := by
  induction l generalizing b with
  | nil => rfl
  | cons c cs ih =>
    simp only [List.foldl]
    rw [max_assoc, ih]

theorem foldl_wcStep_eq_foldl_max (l : List ℚ) (a : ℚ) :
    l.foldl wcStep a = l.foldl max a := rfl

/-- Run of `task_semaphore_waiter_task` over a list of counter readings,
also collecting the converted nanosecond samples the run produces (one
per trial actually executed before the fatal stop). -/
def waiterRunS : List ℕ → CycleTaskState → CycleTaskState × List ℚ
  | [], s => (s, [])
  | r :: rs, s =>
    if s.halted.isSome then (s, [])
    else
      let s₁ := task_semaphore_waiter_trial r s
      let p := waiterRunS rs s₁
      (p.1, s₁.time :: p.2)

theorem waiter_trial_hclk (r : ℕ) (s : CycleTaskState) :
    (task_semaphore_waiter_trial r s).hclk_mhz = s.hclk_mhz := by
  by_cases hh : s.halted.isSome <;> simp [task_semaphore_waiter_trial, hh]

theorem waiterRunS_halted (rs : List ℕ) (s : CycleTaskState)
    (h : s.halted.isSome) : waiterRunS rs s = (s, []) := by
  cases rs with
  | nil => rfl
  | cons r rest => simp [waiterRunS, h]

theorem waiterRunS_wc_mono (rs : List ℕ) (s : CycleTaskState) :
    s.wc ≤ (waiterRunS rs s).1.wc := by
  induction rs generalizing s with
  | nil => exact le_refl _
  | cons r rest ih =>
    by_cases hh : s.halted.isSome
    · rw [waiterRunS_halted (r :: rest) s hh]
    · calc s.wc ≤ (task_semaphore_waiter_trial r s).wc :=
          waiter_trial_wc_mono r s
        _ ≤ (waiterRunS rest (task_semaphore_waiter_trial r s)).1.wc :=
          ih (task_semaphore_waiter_trial r s)
        _ = (waiterRunS (r :: rest) s).1.wc := by simp [waiterRunS, hh]

theorem waiterRunS_append (rs rs' : List ℕ) (s : CycleTaskState) :
    (waiterRunS (rs ++ rs') s).1 = (waiterRunS rs' (waiterRunS rs s).1).1 := by
  induction rs generalizing s with
  | nil => rfl
  | cons r rest ih =>
    by_cases hh : s.halted.isSome
    · rw [waiterRunS_halted (r :: rest ++ rs') s hh,
        waiterRunS_halted (r :: rest) s hh]
      simp [waiterRunS_halted rs' s hh]
    · simp only [List.cons_append, waiterRunS, hh, if_false]
      exact ih (task_semaphore_waiter_trial r s)

theorem waiterRunS_wc_fold (rs : List ℕ) (s : CycleTaskState) :
    (waiterRunS rs s).1.wc = (waiterRunS rs s).2.foldl max s.wc := by
  induction rs generalizing s with
  | nil => rfl
  | cons r rest ih =>
    by_cases hh : s.halted.isSome
    · rw [waiterRunS_halted (r :: rest) s hh]
      rfl
    · have hwc : (task_semaphore_waiter_trial r s).wc =
          max s.wc (task_semaphore_waiter_trial r s).time := by
        simp [task_semaphore_waiter_trial, hh]
      have hstep : waiterRunS (r :: rest) s =
          ((waiterRunS rest (task_semaphore_waiter_trial r s)).1,
            (task_semaphore_waiter_trial r s).time ::
              (waiterRunS rest (task_semaphore_waiter_trial r s)).2) := by
        simp [waiterRunS, hh]
      rw [hstep]
      show (waiterRunS rest (task_semaphore_waiter_trial r s)).1.wc =
        List.foldl max s.wc
          ((task_semaphore_waiter_trial r s).time ::
            (waiterRunS rest (task_semaphore_waiter_trial r s)).2)
      rw [ih (task_semaphore_waiter_trial r s), hwc]
      rfl

theorem le_foldl_max (l : List ℚ) (a : ℚ) : a ≤ l.foldl max a := by
  induction l generalizing a with
  | nil => exact le_refl a
  | cons c cs ih => exact le_trans (le_max_left a c) (ih (max a c))

theorem maxOf_nonneg_of_mem (l : List ℚ) (hl : l ≠ [])
    (h : ∀ x ∈ l, 0 ≤ x) : 0 ≤ maxOf l := by
  cases l with
  | nil => exact absurd rfl hl
  | cons x xs =>
    have hx : 0 ≤ x := h x (by simp)
    exact le_trans hx (le_foldl_max xs x)

theorem waiterRunS_samples_nonneg (rs : List ℕ) (s : CycleTaskState)
    (h : 0 ≤ s.hclk_mhz) : ∀ x ∈ (waiterRunS rs s).2, 0 ≤ x := by
  induction rs generalizing s with
  | nil => intro x hx; simp [waiterRunS] at hx
  | cons r rest ih =>
    intro x hx
    by_cases hh : s.halted.isSome
    · rw [waiterRunS_halted (r :: rest) s hh] at hx
      simp at hx
    · have hstep : waiterRunS (r :: rest) s =
          ((waiterRunS rest (task_semaphore_waiter_trial r s)).1,
            (task_semaphore_waiter_trial r s).time ::
              (waiterRunS rest (task_semaphore_waiter_trial r s)).2) := by
        simp [waiterRunS, hh]
      rw [hstep] at hx
      simp only [List.mem_cons] at hx
      cases hx with
      | inl hx1 =>
        have htime : (task_semaphore_waiter_trial r s).time =
            (r : ℚ) / s.hclk_mhz * 1000 := by
          simp [task_semaphore_waiter_trial, hh]
        rw [hx1, htime]
        exact mul_nonneg (div_nonneg (Nat.cast_nonneg r) h) (by norm_num)
      | inr hx2 =>
        exact ih (task_semaphore_waiter_trial r s)
          (by rw [waiter_trial_hclk]; exact h) x hx2

theorem waiterRunS_samples_ne_nil (r : ℕ) (rest : List ℕ)
    (s : CycleTaskState) (h : s.halted = none) :
    (waiterRunS (r :: rest) s).2 ≠ [] := by
  simp [waiterRunS, h]

/-- C5 counterexample: one timed-wakeup trial of the initial delay-until
session with a zero cycle reading produces the single sample −10 ns, yet
the accumulator ends at 0 (its initial value), not at the maximum −10 of
the produced samples. -/
theorem wc_accumulator_counterexample :
    (delayRun [0] delayInit).2 = [-10] ∧
    maxOf (delayRun [0] delayInit).2 = -10 ∧
    (delayRun [0] delayInit).1.wc = 0 ∧
    (delayRun [0] delayInit).1.wc ≠ maxOf (delayRun [0] delayInit).2 := by
  refine ⟨?_, ?_, ?_, ?_⟩ <;>
    norm_num [delayRun, delayTrial, delayInit, maxOf, WCET_THRESHOLD,
      configured_hclk_mhz]

/-- C5 amended: the worst-case accumulator is monotonically non-decreasing
per trial and across a run for both cited targets (the timed-wakeup loop
`delay_until_profiling` and the cycle-time loop
`task_semaphore_waiter_task`), and after the run it equals the maximum of
the produced samples together with its initial value 0, i.e.
`max 0 (maxOf samples)`; it equals the plain maximum of the samples
exactly when that maximum is ≥ 0.  For the cycle-time target all samples
are nonnegative, so every nonempty run of it ends with the accumulator
equal to the plain maximum of its samples; only a timed-wakeup run with
exclusively negative overhead samples can deviate. -/
theorem wc_accumulator_max_with_floor :
    (∀ (r : ℕ) (s : DelayTaskState), s.wc ≤ (delayTrial r s).wc) ∧
    (∀ (r : ℕ) (s : CycleTaskState),
      s.wc ≤ (task_semaphore_waiter_trial r s).wc) ∧
    (∀ (rs rs' : List ℕ) (s : DelayTaskState),
      (delayRun rs s).1.wc ≤ (delayRun (rs ++ rs') s).1.wc) ∧
    (∀ (rs rs' : List ℕ) (s : CycleTaskState),
      (waiterRunS rs s).1.wc ≤ (waiterRunS (rs ++ rs') s).1.wc) ∧
    (∀ rs : List ℕ,
      (delayRun rs delayInit).1.wc = wcFold (delayRun rs delayInit).2) ∧
    (∀ rs : List ℕ,
      (waiterRunS rs task_semaphore_waiter_init).1.wc =
        wcFold (waiterRunS rs task_semaphore_waiter_init).2) ∧
    (∀ rs : List ℕ,
      ∀ x ∈ (waiterRunS rs task_semaphore_waiter_init).2, 0 ≤ x) ∧
    (∀ rs : List ℕ, rs ≠ [] →
      (waiterRunS rs task_semaphore_waiter_init).1.wc =
        maxOf (waiterRunS rs task_semaphore_waiter_init).2) ∧
    (∀ l : List ℚ, l ≠ [] → wcFold l = max 0 (maxOf l)) ∧
    (∀ l : List ℚ, l ≠ [] → 0 ≤ maxOf l → wcFold l = maxOf l) := by
  have hfold : ∀ l : List ℚ, l ≠ [] → wcFold l = max 0 (maxOf l) := by
    intro l hl
    cases l with
    | nil => exact absurd rfl hl
    | cons x xs =>
      show (x :: xs).foldl wcStep 0 = max 0 (maxOf (x :: xs))
      rw [foldl_wcStep_eq_foldl_max]
      calc (x :: xs).foldl max 0 = xs.foldl max (max 0 x) := rfl
        _ = max 0 (xs.foldl max x) := foldl_max_shift xs 0 x
        _ = max 0 (maxOf (x :: xs)) := rfl
  have hrunfoldW : ∀ rs : List ℕ,
      (waiterRunS rs task_semaphore_waiter_init).1.wc =
        wcFold (waiterRunS rs task_semaphore_waiter_init).2 := by
    intro rs
    have h := waiterRunS_wc_fold rs task_semaphore_waiter_init
    simpa [wcFold, foldl_wcStep_eq_foldl_max, task_semaphore_waiter_init]
      using h
  have hnnW : ∀ rs : List ℕ,
      ∀ x ∈ (waiterRunS rs task_semaphore_waiter_init).2, 0 ≤ x := by
    intro rs
    exact waiterRunS_samples_nonneg rs task_semaphore_waiter_init
      (by norm_num [task_semaphore_waiter_init, configured_hclk_mhz])
  refine ⟨delayTrial_wc_mono, waiter_trial_wc_mono, ?_, ?_, ?_, hrunfoldW,
    hnnW, ?_, hfold, ?_⟩
  · intro rs rs' s
    rw [delayRun_append rs rs' s]
    exact delayRun_wc_mono rs' (delayRun rs s).1
  · intro rs rs' s
    rw [waiterRunS_append rs rs' s]
    exact waiterRunS_wc_mono rs' (waiterRunS rs s).1
  · intro rs
    have h := delayRun_wc_fold rs delayInit
    simpa [wcFold, foldl_wcStep_eq_foldl_max, delayInit] using h
  · intro rs hrs
    cases rs with
    | nil => exact absurd rfl hrs
    | cons r rest =>
      have hne : (waiterRunS (r :: rest) task_semaphore_waiter_init).2 ≠ [] :=
        waiterRunS_samples_ne_nil r rest task_semaphore_waiter_init rfl
      rw [hrunfoldW (r :: rest), hfold _ hne,
        max_eq_right (maxOf_nonneg_of_mem _ hne (hnnW (r :: rest)))]
  · intro l hl hpos
    rw [hfold l hl]
    exact max_eq_right hpos

/-- Witness for C5's amendment: on a one-trial run with a 33600-cycle
reading the timed-wakeup accumulator equals the fold of the produced
samples; a one-trial cycle-time run with a 168-cycle reading ends with
the accumulator equal to the plain maximum of its samples; and on the
sample list `[5]` the accumulator law gives back the plain maximum. -/
theorem wc_accumulator_max_with_floor_witness :
    (delayRun [33600] delayInit).1.wc = wcFold (delayRun [33600] delayInit).2 ∧
    (waiterRunS [168] task_semaphore_waiter_init).1.wc =
      maxOf (waiterRunS [168] task_semaphore_waiter_init).2 ∧
    wcFold [5] = maxOf [5] := by
  refine ⟨wc_accumulator_max_with_floor.2.2.2.2.1 [33600], ?_, ?_⟩
  · exact wc_accumulator_max_with_floor.2.2.2.2.2.2.2.1 [168] (by simp)
  · apply wc_accumulator_max_with_floor.2.2.2.2.2.2.2.2.2 [5]
    · simp
    · norm_num [maxOf]

/-! ### C6, C9 -/

/-- C6 (evaluation of the defect): the signal-reader's divisor is
initialized to 0, not the configured 168 MHz; the waiter target converts
`168` cycles to `168 / 168 * 1000 = 1000` ns as the specification's
formula demands, while the signal reader's conversion of the same reading
disagrees with that formula because it divides by zero. -/
theorem signal_reader_divisor_not_configured :
    signal_reader_init.hclk_mhz = 0 ∧
    signal_reader_init.hclk_mhz ≠ configured_hclk_mhz ∧
    task_semaphore_waiter_init.hclk_mhz = configured_hclk_mhz ∧
    (task_semaphore_waiter_trial 168 task_semaphore_waiter_init).time =
      (168 : ℚ) / configured_hclk_mhz * 1000 ∧
    (signal_reader_trial 168 signal_reader_init).time ≠
      (168 : ℚ) / configured_hclk_mhz * 1000 := by
  refine ⟨rfl, ?_, rfl, ?_, ?_⟩ <;>
    norm_num [signal_reader_trial, task_semaphore_waiter_trial,
      signal_reader_init, task_semaphore_waiter_init, configured_hclk_mhz]

/-- C9: the signal-reader clock divisor starts at 0, no trial ever
changes it, so every conversion in `signal_reader_task` divides the cycle
count by zero rather than by the configured core clock frequency. -/
theorem signal_reader_divides_by_zero :
    signal_reader_init.hclk_mhz = 0 ∧
    (∀ (r : ℕ) (s : CycleTaskState),
      (signal_reader_trial r s).hclk_mhz = s.hclk_mhz) ∧
    (∀ rs : List ℕ, (readerRun rs signal_reader_init).hclk_mhz = 0) ∧
    (∀ (r : ℕ) (s : CycleTaskState), s.halted = none →
      (signal_reader_trial r s).time = (r : ℚ) / s.hclk_mhz * 1000) ∧
    signal_reader_init.hclk_mhz ≠ configured_hclk_mhz := by
  have hkeep : ∀ (r : ℕ) (s : CycleTaskState),
      (signal_reader_trial r s).hclk_mhz = s.hclk_mhz := by
    intro r s
    by_cases hh : s.halted.isSome <;> simp [signal_reader_trial, hh]
  have hrun : ∀ (rs : List ℕ) (s : CycleTaskState),
      (readerRun rs s).hclk_mhz = s.hclk_mhz := by
    intro rs
    induction rs with
    | nil => intro s; rfl
    | cons r rest ih =>
      intro s
      calc (readerRun (r :: rest) s).hclk_mhz
          = (readerRun rest (signal_reader_trial r s)).hclk_mhz := rfl
        _ = (signal_reader_trial r s).hclk_mhz := ih (signal_reader_trial r s)
        _ = s.hclk_mhz := hkeep r s
  refine ⟨rfl, hkeep, ?_, ?_, ?_⟩
  · intro rs
    calc (readerRun rs signal_reader_init).hclk_mhz
        = signal_reader_init.hclk_mhz := hrun rs signal_reader_init
      _ = 0 := rfl
  · intro r s h
    simp [signal_reader_trial, h]
  · norm_num [signal_reader_init, configured_hclk_mhz]

/-- Witness for C9: the first trial of the signal reader converts a
168-cycle reading by dividing by the initial (zero) divisor. -/
theorem signal_reader_divides_by_zero_witness :
    (signal_reader_trial 168 signal_reader_init).time =
      (168 : ℚ) / signal_reader_init.hclk_mhz * 1000 :=
  signal_reader_divides_by_zero.2.2.2.1 168 signal_reader_init rfl
